import Mathlib

/-!
Verification of the lyubitori2 scraper against its specification.

The development shallowly embeds the code slices the claims are about:

* `save_image_from_data_url` — the image codec adapter
  (src/twitter_scraper/scraper.py, `TwitterImageScraper.save_image_from_data_url`);
* `retry_go` / `download_with_retry` — the per-item bounded retry loop
  (scraper.py, `download_visible_images`, lines 162-186);
* `dviStep` / `download_visible_images` — one extraction/download round
  (scraper.py, `download_visible_images`);
* `engine_go` / `scroll_and_download` — the scroll-download engine loop
  (scraper.py, `scroll_and_download`);
* `task_go` / `run_download_task` — the HTTP task runner's scroll loop
  (src/app.py, `run_download_task`);
* `cancel_task` — the task-cancel endpoint (src/app.py, `cancel_task`);
* `replayCookies` / `load_cookies` — cookie replay
  (src/twitter_scraper/session.py, `SessionManager.load_cookies`).

The browser environment is abstracted: a DOM element carries its `src`
attribute, its derived image name (the result of `get_image_name`, whose URL
parsing is environmental) and the per-attempt outcomes of the in-page fetch
bridge for its URL.  Image decoding (base64 + PIL) is a black box, passed in
as a `decode` function; a decoded image is its format string plus its decoded
byte payload (`tobytes()`).  The filesystem is an association list from
filename to the decode result of the stored file.  Python exceptions around
extraction (the round-level retry in `scroll_and_download`) and the wall-clock
sleeps are outside the model; where a claim mentions them the theorem's
hypotheses restrict to the exception-free executions the claim quantifies
over.
-/

namespace Lyubitori

/-! ### String utilities

Python's substring test, `str.replace` and `str.lower` are modelled
structurally over character lists (rather than through the library's string
primitives) so that every definition in this file evaluates by kernel
reduction on concrete inputs. -/

/-- Does `pat` occur at the head of `s`? -/
def startsList : List Char → List Char → Bool
  | _, [] => true
  | [], _ :: _ => false
  | a :: s, b :: p => a == b && startsList s p

/-- Does `pat` occur anywhere in `s`? -/
def hasSub : List Char → List Char → Bool
  | [], pat => pat.isEmpty
  | a :: rest, pat => startsList (a :: rest) pat || hasSub rest pat

/-- Python's substring test `pat in s`. -/
def containsTok (s pat : String) : Bool := hasSub s.data pat.data

/-- Python `s.replace(pat, rep)` on character lists: replace every
non-overlapping occurrence of the non-empty `pat` left to right.  The fuel
argument is instantiated with the length of `s`, which suffices because every
step consumes at least one character of `s`. -/
def replaceGo (pat rep : List Char) : Nat → List Char → List Char
  | _, [] => []
  | 0, s => s
  | fuel + 1, a :: rest =>
    if startsList (a :: rest) pat && !pat.isEmpty then
      rep ++ replaceGo pat rep fuel (List.drop (pat.length - 1) rest)
    else
      a :: replaceGo pat rep fuel rest

/-- Python `s.replace(pat, rep)`. -/
def strReplace (s pat rep : String) : String :=
  ⟨replaceGo pat.data rep.data s.data.length s.data⟩

/-- Python `s.lower()`. -/
def strToLower (s : String) : String := ⟨s.data.map Char.toLower⟩

/-! ### Image codec adapter: `save_image_from_data_url` (scraper.py 47-80) -/

/-- A data URL string as returned by the in-page fetch bridge. -/
abbrev DataUrl := String

/-- A decoded image: its format (as reported by the decoder, e.g. `"PNG"`)
and its decoded byte payload (`Image.tobytes()`). -/
structure Img where
  format : String
  payload : List Nat
deriving DecidableEq, Repr

/-- A file on disk, represented by what opening and decoding it yields
(`none` when the stored bytes do not decode). -/
structure DiskFile where
  decoded : Option Img
deriving DecidableEq, Repr

/-- The output directory: filename ↦ stored file. -/
abbrev FS := List (String × DiskFile)

def fsLookup : FS → String → Option DiskFile
  | [], _ => none
  | (n, f) :: rest, name => if n = name then some f else fsLookup rest name

def fsWrite : FS → String → DiskFile → FS
  | [], name, f => [(name, f)]
  | (n, g) :: rest, name, f =>
    if n = name then (name, f) :: rest else (n, g) :: fsWrite rest name f

/-- `TwitterImageScraper.save_image_from_data_url` (scraper.py 47-80).
`decode` is the black-box base64 + PIL decode of the data URL; decode failure
is the `except` branch returning `False` with the filesystem untouched.  On
success the target filename is `{img_name}.{img.format.lower()}`; if that file
exists and decodes, the new image is written only when its payload is strictly
larger than the existing one (`len(existing) >= len(new)` skips); an existing
file that fails to decode is overwritten. -/
def save_image_from_data_url (decode : DataUrl → Option Img)
    (img_name : String) (data_url : DataUrl) (fs : FS) : Bool × FS :=
  match decode data_url with
  | none => (false, fs)
  | some img =>
    let output_file := img_name ++ "." ++ strToLower img.format
    match fsLookup fs output_file with
    | some existing =>
      match existing.decoded with
      | some ex =>
        if img.payload.length ≤ ex.payload.length then (true, fs)
        else (true, fsWrite fs output_file ⟨some img⟩)
      | none => (true, fsWrite fs output_file ⟨some img⟩)
    | none => (true, fsWrite fs output_file ⟨some img⟩)

/-! ### Per-item retry loop (scraper.py 162-186) -/

/-- Instrumented outcome of the per-item retry loop: how many fetch attempts
were made, how many `time.sleep(2)` waits occurred between attempts, and the
result of `save_image_from_data_url` when a fetch succeeded (`none` when the
item was abandoned with no successful fetch). -/
structure ItemAttempt where
  fetches : Nat
  sleeps : Nat
  saved : Option Bool
deriving DecidableEq, Repr

/-- The `while error_count < max_error_count` loop of
`download_visible_images` (scraper.py 162-186), with `fuel` standing for
`max_error_count - error_count` and `ec` the current `error_count` (used to
index the fetch bridge's per-attempt outcome).  A successful fetch saves and
breaks regardless of the save result; a failed fetch increments the error
count and sleeps only when further attempts remain. -/
def retry_go (decode : DataUrl → Option Img) (fetch : Nat → Option DataUrl)
    (image_name : String) (fs : FS) : Nat → Nat → ItemAttempt × FS
  | 0, _ => (⟨0, 0, none⟩, fs)
  | fuel + 1, ec =>
    match fetch ec with
    | some d =>
      let r := save_image_from_data_url decode image_name d fs
      (⟨1, 0, some r.1⟩, r.2)
    | none =>
      if fuel = 0 then (⟨1, 0, none⟩, fs)
      else
        let r := retry_go decode fetch image_name fs fuel (ec + 1)
        (⟨r.1.fetches + 1, r.1.sleeps + 1, r.1.saved⟩, r.2)

/-- The per-item download-with-retry entry point: the loop above started with
`error_count = 0`. -/
def download_with_retry (decode : DataUrl → Option Img)
    (fetch : Nat → Option DataUrl) (image_name : String)
    (max_error_count : Nat) (fs : FS) : ItemAttempt × FS :=
  retry_go decode fetch image_name fs max_error_count 0

/-! ### One extraction/download round: `download_visible_images`
(scraper.py 123-188) -/

/-- The thumbnail test of scraper.py line 144:
`any(size in url for size in ["name=240x240", "name=360x360"])`. -/
def is_thumbnail (url : String) : Bool :=
  containsTok url "name=240x240" || containsTok url "name=360x360"

/-- `TwitterImageScraper._enhance_image_url` (scraper.py 190-197). -/
def enhance_image_url (url : String) : String :=
  strReplace (strReplace (strReplace (strReplace url
    "format=jpg" "format=png")
    "format=webp" "format=png")
    "name=small" "name=large")
    "name=900x900" "name=large"

/-- A media element of the rendered page.  `src` is its `src` attribute
(`None` possible), `nameOf` the result of `get_image_name` on this element as
a function of the (already enhanced) URL it is called with, and `fetch` the
per-attempt outcome of the in-page fetch bridge for this element's URL. -/
structure Elem where
  src : Option String
  nameOf : String → String
  fetch : Nat → Option DataUrl

/-- The loop state of `download_visible_images`, instrumented with the list
of download attempts actually started (image name and retry outcome, in
order). -/
structure DVIState where
  last_img : Option Elem
  viewed_urls : Finset String
  fs : FS
  attempted : List (String × ItemAttempt)

/-- One iteration of the `for img in imgs` loop of
`download_visible_images` (scraper.py 136-186): a missing `src` is skipped
entirely; otherwise the raw URL joins `viewed_urls`; a thumbnail URL then
`continue`s (anchor, filesystem and attempts untouched); otherwise the element
becomes the scroll anchor, the URL is enhanced, the image name derived, and —
unless `{name}.png` already exists — the retry download runs. -/
def dviStep (decode : DataUrl → Option Img) (max_error_count : Nat)
    (st : DVIState) (img : Elem) : DVIState :=
  match img.src with
  | none => st
  | some url =>
    let st1 : DVIState := { st with viewed_urls := insert url st.viewed_urls }
    if is_thumbnail url then st1
    else
      let st2 : DVIState := { st1 with last_img := some img }
      let url2 := enhance_image_url url
      let image_name := img.nameOf url2
      let output_file := image_name ++ ".png"
      if (fsLookup st2.fs output_file).isSome then st2
      else
        let r := download_with_retry decode img.fetch image_name
          max_error_count st2.fs
        { st2 with fs := r.2, attempted := st2.attempted ++ [(image_name, r.1)] }

/-- `TwitterImageScraper.download_visible_images` (scraper.py 123-188) on one
DOM snapshot `imgs`, starting from output directory `fs`. -/
def download_visible_images (decode : DataUrl → Option Img)
    (max_error_count : Nat) (imgs : List Elem) (fs : FS) : DVIState :=
  imgs.foldl (dviStep decode max_error_count) ⟨none, ∅, fs, []⟩

/-- The set of raw URLs a snapshot contributes to `viewed_urls`; shown below
to coincide with the `viewed_urls` component of `download_visible_images`
independently of the decoder, the retry bound and the filesystem. -/
def viewedOf (imgs : List Elem) : Finset String :=
  imgs.foldl
    (fun s e => match e.src with | some u => insert u s | none => s) ∅

/-! ### The scroll-download engine: `scroll_and_download`
(scraper.py 199-273) -/

/-- Which `return` of `scroll_and_download` fired: `exhausted` is the
no-new-content return inside the loop (line 236), `capped` the normal return
after the `while` condition fails (line 273). -/
inductive StopKind
  | exhausted
  | capped
deriving DecidableEq, Repr

/-- Result of an engine run, instrumented with the value of `loop` at the
return point and the per-round download-attempt log. -/
structure EngineResult where
  total_downloaded : Nat
  stop : StopKind
  stop_round : Nat
  fs : FS
  log : List (List (String × ItemAttempt))
deriving Repr

/-- The `while loop < max_scroll` loop of `scroll_and_download`
(scraper.py 218-273): `fuel` stands for `max_scroll - loop`.  Each round runs
`download_visible_images` (which performs this round's downloads), then tests
`len(viewed_urls.union(previous_urls)) == len(previous_urls)` and returns
`total_downloaded` when it holds; otherwise accumulates
`len(viewed_urls - previous_urls)`, sets `previous_urls := viewed_urls`,
scrolls and increments `loop`.  The round-level exception retry (lines
222-255) is not modelled: extraction in this model cannot raise. -/
def engine_go (decode : DataUrl → Option Img) (max_error_count : Nat)
    (pages : Nat → List Elem) :
    Nat → Nat → Finset String → Nat → FS →
      List (List (String × ItemAttempt)) → EngineResult
  | 0, loop, _prev, total, fs, log => ⟨total, .capped, loop, fs, log⟩
  | fuel + 1, loop, prev, total, fs, log =>
    let st := download_visible_images decode max_error_count (pages loop) fs
    if (st.viewed_urls ∪ prev).card = prev.card then
      ⟨total, .exhausted, loop, st.fs, log ++ [st.attempted]⟩
    else
      engine_go decode max_error_count pages fuel (loop + 1) st.viewed_urls
        (total + (st.viewed_urls \ prev).card) st.fs (log ++ [st.attempted])

/-- `TwitterImageScraper.scroll_and_download` (scraper.py 199-273), with the
page navigation abstracted into the round-indexed DOM snapshots `pages`. -/
def scroll_and_download (decode : DataUrl → Option Img)
    (max_error_count : Nat) (pages : Nat → List Elem) (max_scroll : Nat)
    (fs : FS) : EngineResult :=
  engine_go decode max_error_count pages max_scroll 0 ∅ 0 fs []

/-- The `previous_urls` value in force at the start of round `loop + j` of an
engine run whose state at round `loop` carries `previous_urls = prev` and
that does not stop before round `loop + j`. -/
def prevChain (pages : Nat → List Elem) (loop : Nat) (prev : Finset String) :
    Nat → Finset String
  | 0 => prev
  | j + 1 => viewedOf (pages (loop + j))

/-! ### The HTTP task runner: `run_download_task` (app.py 122-227) -/

/-- Task lifecycle states (app.py `TaskStatus`). -/
inductive TaskStatus
  | pending
  | running
  | completed
  | failed
  | cancelled
deriving DecidableEq, Repr

/-- Result of the task runner's scroll loop, instrumented with the number of
rounds executed (calls to `download_visible_images`) and the value of `loop`
at exit. -/
structure TaskRunResult where
  final_status : TaskStatus
  total_images : Nat
  rounds_executed : Nat
  loop_final : Nat
deriving DecidableEq, Repr

/-- The `while loop < task.max_scroll` loop of `run_download_task`
(app.py 157-198) followed by the completion update (app.py 201-203):
each round first polls the cancellation flag, then extracts/downloads, adds
`len(viewed_urls - previous_urls)` to the total, reassigns
`previous_urls = viewed_urls` (app.py line 170), and only then tests
`len(viewed_urls.union(previous_urls)) == len(previous_urls)` (line 180),
breaking to the `COMPLETED` update when it holds.  `cancelAt` is the
round-indexed cancellation signal; the `except` branch (lines 193-196) is not
modelled: extraction in this model cannot raise.  The scraper is called with
its default `max_error_count = 3` as in app.py line 165. -/
def task_go (decode : DataUrl → Option Img) (pages : Nat → List Elem)
    (cancelAt : Nat → Bool) :
    Nat → Nat → Finset String → Nat → FS → Nat → TaskRunResult
  | 0, loop, _prev, total, _fs, rounds => ⟨.completed, total, rounds, loop⟩
  | fuel + 1, loop, prev, total, fs, rounds =>
    if cancelAt loop then ⟨.cancelled, total, rounds, loop⟩
    else
      let st := download_visible_images decode 3 (pages loop) fs
      let total2 := total + (st.viewed_urls \ prev).card
      let prev2 := st.viewed_urls
      if (st.viewed_urls ∪ prev2).card = prev2.card then
        ⟨.completed, total2, rounds + 1, loop⟩
      else
        task_go decode pages cancelAt fuel (loop + 1) prev2 total2 st.fs
          (rounds + 1)

/-- `run_download_task`'s scroll loop from its initial state
(`loop = 0`, `previous_urls = set()`, `total_images = 0`). -/
def run_download_task (decode : DataUrl → Option Img)
    (pages : Nat → List Elem) (cancelAt : Nat → Bool) (max_scroll : Nat)
    (fs : FS) : TaskRunResult :=
  task_go decode pages cancelAt max_scroll 0 ∅ 0 fs 0

/-! ### The cancel endpoint: `cancel_task` (app.py 366-384) -/

/-- The claim-relevant slice of a task record. -/
structure Task where
  status : TaskStatus
  completed_at : Option Nat
deriving DecidableEq, Repr

/-- The task registry: task id ↦ task record. -/
abbrev TaskDict := List (String × Task)

def taskLookup : TaskDict → String → Option Task
  | [], _ => none
  | (i, t) :: rest, tid => if i = tid then some t else taskLookup rest tid

def taskUpdate : TaskDict → String → Task → TaskDict
  | [], _, _ => []
  | (i, u) :: rest, tid, t =>
    if i = tid then (i, t) :: rest else (i, u) :: taskUpdate rest tid t

/-- `POST /tasks/<task_id>/cancel` (app.py 366-384): unknown id → 404;
a task whose status is COMPLETED, FAILED or CANCELLED → 400 with the registry
untouched; otherwise the status becomes CANCELLED and `completed_at` is set to
the current time, with HTTP 200. -/
def cancel_task (tasks : TaskDict) (task_id : String) (now : Nat) :
    Nat × TaskDict :=
  match taskLookup tasks task_id with
  | none => (404, tasks)
  | some t =>
    if t.status = .completed ∨ t.status = .failed ∨ t.status = .cancelled then
      (400, tasks)
    else
      (200, taskUpdate tasks task_id ⟨.cancelled, some now⟩)

/-! ### Cookie replay: `SessionManager.load_cookies` (session.py 31-60) -/

/-- A cookie record as a list of attribute/value pairs. -/
abbrev Cookie := List (String × String)

def cookieHasKey (c : Cookie) (k : String) : Bool :=
  c.any (fun p => p.1 == k)

/-- Python `cookie.pop(k, None)`: drop the attribute named `k`. -/
def cookiePop (c : Cookie) (k : String) : Cookie :=
  c.filter (fun p => p.1 != k)

/-- The per-cookie stripping of session.py lines 47-48:
`cookie.pop("sameSite", None); cookie.pop("staleAt", None)`. -/
def stripCookie (c : Cookie) : Cookie :=
  cookiePop (cookiePop c "sameSite") "staleAt"

/-- Result of replaying a cookie file: whether the session is reported
restored, the stripped records passed to `driver.add_cookie` in order, and
those the browser accepted. -/
structure LoadResult where
  restored : Bool
  handed_to_browser : List Cookie
  added : List Cookie
deriving DecidableEq, Repr

/-- The `for cookie in cookies` loop of `load_cookies` (session.py 44-53):
each record is stripped and handed to `driver.add_cookie` (modelled by
`addCookie`, `false` meaning the call raised); a failure skips only that
record. -/
def replayCookies (addCookie : Cookie → Bool) :
    List Cookie → List Cookie × List Cookie
  | [] => ([], [])
  | c :: rest =>
    let c2 := stripCookie c
    let r := replayCookies addCookie rest
    (c2 :: r.1, if addCookie c2 then c2 :: r.2 else r.2)

/-- `SessionManager.load_cookies` (session.py 31-60) on a successfully read
cookie file: replay every record and report the session restored (the
function returns `True` after the loop regardless of per-cookie failures; the
`False` returns concern a missing or unreadable file, which is outside this
model). -/
def load_cookies (addCookie : Cookie → Bool) (cookies : List Cookie) :
    LoadResult :=
  let r := replayCookies addCookie cookies
  ⟨true, r.1, r.2⟩

/-! ### Concrete environments used by the closed instances below -/

/-- A decoder on which every payload fails to decode. -/
def exDecode : DataUrl → Option Img := fun _ => none

/-- Three media elements with distinct raw URLs whose fetches always fail. -/
def exElemA : Elem := ⟨some "A", fun u => u, fun _ => none⟩

def exElemB : Elem := ⟨some "B", fun u => u, fun _ => none⟩

def exElemC : Elem := ⟨some "C", fun u => u, fun _ => none⟩

/-- A feed that shows the same three images every round. -/
def exPagesABC : Nat → List Elem := fun _ => [exElemA, exElemB, exElemC]

/-- One element whose fetch always fails, so its file is never persisted. -/
def ce1Elem : Elem := ⟨some "u", fun u => u, fun _ => none⟩

/-- A feed showing that single element every round. -/
def ce1Pages : Nat → List Elem := fun _ => [ce1Elem]

/-- A decoder that decodes every payload to a small PNG. -/
def c2Decode : DataUrl → Option Img := fun _ => some ⟨"PNG", [1]⟩

/-- A raw URL carrying the small-size variant token. -/
def c2ThumbUrl : String := "a?name=240x240"

/-- A thumbnail element whose fetch would succeed. -/
def c2Thumb : Elem := ⟨some c2ThumbUrl, fun u => u, fun _ => some "d"⟩

/-- The same element with a non-thumbnail URL. -/
def c2Plain : Elem := ⟨some "a", fun u => u, fun _ => some "d"⟩

/-- An image whose decoded format is JPEG. -/
def c7Img : Img := ⟨"JPEG", [1]⟩

def c7Decode : DataUrl → Option Img := fun _ => some c7Img

/-- The output directory after persisting `c7Img` under identity `n`. -/
def c7Fs : FS := (save_image_from_data_url c7Decode "n" "d" []).2

/-- An element whose derived identity is `n` and whose fetch succeeds. -/
def c7Elem : Elem := ⟨some "u", fun _ => "n", fun _ => some "d"⟩

/-- A two-round feed yielding a fresh URL each round. -/
def c8Pages : Nat → List Elem :=
  fun i => [⟨some (if i = 0 then "p" else "q"), fun u => u, fun _ => none⟩]

/-- An image strictly larger than `c3Small`. -/
def c3Big : Img := ⟨"PNG", [1, 2]⟩

def c3Small : Img := ⟨"PNG", [1]⟩

def c3Decode : DataUrl → Option Img := fun _ => some c3Big

/-- An output directory already holding the smaller image under `n.png`. -/
def c3Fs : FS := [("n.png", ⟨some c3Small⟩)]

/-- A fetch bridge that fails on every attempt. -/
def c4FetchFail : Nat → Option DataUrl := fun _ => none

/-- A fetch bridge that fails once and succeeds on the second attempt. -/
def c4FetchOk : Nat → Option DataUrl := fun i => if i = 1 then some "d" else none

/-- A single-element feed for the task-runner instance. -/
def c5Pages : Nat → List Elem := fun _ => [⟨some "A", fun u => u, fun _ => none⟩]

/-- A fetch bridge that succeeds immediately. -/
def c6Fetch : Nat → Option DataUrl := fun _ => some "d"

/-- A cookie record carrying both attributes that must be stripped. -/
def c9Cookie : Cookie := [("sameSite", "Lax"), ("name", "auth"), ("staleAt", "1")]

/-- A registry with one finished and one running task. -/
def c10Tasks : TaskDict :=
  [("t", ⟨TaskStatus.completed, some 5⟩), ("u", ⟨TaskStatus.running, none⟩)]

/-! ### Helper lemmas -/

theorem fsLookup_fsWrite_self (fs : FS) (name : String) (f : DiskFile) :
    fsLookup (fsWrite fs name f) name = some f := by
  induction fs with
  | nil => simp [fsWrite, fsLookup]
  | cons p rest ih =>
    obtain ⟨n, g⟩ := p
    by_cases h : n = name
    · simp [fsWrite, h, fsLookup]
    · simp [fsWrite, h, fsLookup, ih]

/-- The cardinality test of scraper.py line 233 / app.py line 180 is the
subset test of the specification. -/
theorem union_card_iff (a b : Finset String) :
    (a ∪ b).card = b.card ↔ a ⊆ b := by
  constructor
  · intro h
    have h1 : b ⊆ a ∪ b := Finset.subset_union_right
    have h2 : b = a ∪ b := Finset.eq_of_subset_of_card_le h1 (le_of_eq h)
    intro x hx
    have hx2 : x ∈ a ∪ b := Finset.mem_union_left _ hx
    rwa [← h2] at hx2
  · intro h
    rw [Finset.union_eq_right.mpr h]

theorem append_singleton_ne {α : Type} (l : List α) (a : α) : l ++ [a] ≠ l := by
  intro h
  have h2 := congrArg List.length h
  simp at h2

/-- A fetch bridge failing on every attempt makes the retry loop run
`fuel` attempts with `fuel - 1` waits and leaves the filesystem alone. -/
theorem retry_go_all_fail (decode : DataUrl → Option Img)
    (fetch : Nat → Option DataUrl) (name : String) (fs : FS)
    (hf : ∀ n, fetch n = none) :
    ∀ fuel ec, retry_go decode fetch name fs (fuel + 1) ec =
      (⟨fuel + 1, fuel, none⟩, fs) := by
  intro fuel
  induction fuel with
  | zero => intro ec; simp [retry_go, hf]
  | succ n ih =>
    intro ec
    rw [retry_go]
    simp [hf, ih (ec + 1)]

/-- A first fetch success at attempt index `k` stops the retry loop there,
after `k` waits, recording the save outcome. -/
theorem retry_go_first_success (decode : DataUrl → Option Img)
    (fetch : Nat → Option DataUrl) (name : String) (fs : FS) (d : DataUrl) :
    ∀ (k fuel ec : Nat), k < fuel →
      (∀ i, i < k → fetch (ec + i) = none) →
      fetch (ec + k) = some d →
      retry_go decode fetch name fs fuel ec =
        (⟨k + 1, k, some (save_image_from_data_url decode name d fs).1⟩,
          (save_image_from_data_url decode name d fs).2) := by
  intro k
  induction k with
  | zero =>
    intro fuel ec hk h0 hs
    match fuel, hk with
    | fuel + 1, _ =>
      rw [retry_go]
      simp only [Nat.add_zero] at hs
      rw [hs]
  | succ m ih =>
    intro fuel ec hk h0 hs
    match fuel, hk with
    | fuel + 1, hk =>
      rw [retry_go]
      have h00 : fetch ec = none := by
        have := h0 0 (Nat.succ_pos m); simpa using this
      rw [h00]
      have hfuel : ¬ fuel = 0 := by omega
      simp only [if_neg hfuel]
      rw [ih fuel (ec + 1) (by omega)
        (fun i hi => by
          have h1 := h0 (i + 1) (by omega)
          have h2 : ec + (i + 1) = ec + 1 + i := by omega
          rwa [h2] at h1)
        (by
          have h2 : ec + (m + 1) = ec + 1 + m := by omega
          rwa [h2] at hs)]

/-- The element loop skips elements with no `src` attribute entirely. -/
theorem dviStep_src_none (decode : DataUrl → Option Img) (mec : Nat)
    (st : DVIState) (e : Elem) (h : e.src = none) :
    dviStep decode mec st e = st := by
  simp [dviStep, h]

/-- A thumbnail URL only joins `viewed_urls`: the `continue` of
scraper.py line 145 leaves the anchor, the filesystem and the download
attempts untouched. -/
theorem dviStep_thumb (decode : DataUrl → Option Img) (mec : Nat)
    (st : DVIState) (e : Elem) (url : String) (h : e.src = some url)
    (ht : is_thumbnail url = true) :
    dviStep decode mec st e =
      { st with viewed_urls := insert url st.viewed_urls } := by
  simp [dviStep, h, ht]

/-- A non-thumbnail element whose `{name}.png` already exists becomes the
anchor but is not downloaded. -/
theorem dviStep_skip (decode : DataUrl → Option Img) (mec : Nat)
    (st : DVIState) (e : Elem) (url : String) (h : e.src = some url)
    (ht : is_thumbnail url = false)
    (hex : (fsLookup st.fs (e.nameOf (enhance_image_url url) ++ ".png")).isSome) :
    dviStep decode mec st e =
      { st with viewed_urls := insert url st.viewed_urls
              , last_img := some e } := by
  simp [dviStep, h, ht, hex]

/-- A non-thumbnail element with no `{name}.png` on disk goes through the
retry download. -/
theorem dviStep_download (decode : DataUrl → Option Img) (mec : Nat)
    (st : DVIState) (e : Elem) (url : String) (h : e.src = some url)
    (ht : is_thumbnail url = false)
    (hex : fsLookup st.fs (e.nameOf (enhance_image_url url) ++ ".png") = none) :
    dviStep decode mec st e =
      { last_img := some e
      , viewed_urls := insert url st.viewed_urls
      , fs := (download_with_retry decode e.fetch
          (e.nameOf (enhance_image_url url)) mec st.fs).2
      , attempted := st.attempted ++
          [(e.nameOf (enhance_image_url url),
            (download_with_retry decode e.fetch
              (e.nameOf (enhance_image_url url)) mec st.fs).1)] } := by
  simp [dviStep, h, ht, hex]

/-- The `viewed_urls` component of one element step depends only on the
element's `src`. -/
theorem dviStep_viewed (decode : DataUrl → Option Img) (mec : Nat)
    (st : DVIState) (e : Elem) :
    (dviStep decode mec st e).viewed_urls =
      (match e.src with
       | some u => insert u st.viewed_urls
       | none => st.viewed_urls) := by
  cases h : e.src with
  | none => rw [dviStep_src_none decode mec st e h]
  | some url =>
    by_cases ht : is_thumbnail url = true
    · rw [dviStep_thumb decode mec st e url h ht]
    · have ht' : is_thumbnail url = false := by simpa using ht
      by_cases hex :
          (fsLookup st.fs (e.nameOf (enhance_image_url url) ++ ".png")).isSome
      · rw [dviStep_skip decode mec st e url h ht' hex]
      · have hex' :
            fsLookup st.fs (e.nameOf (enhance_image_url url) ++ ".png") = none :=
          Option.not_isSome_iff_eq_none.mp hex
        rw [dviStep_download decode mec st e url h ht' hex']

theorem foldl_dviStep_viewed (decode : DataUrl → Option Img) (mec : Nat) :
    ∀ (imgs : List Elem) (st : DVIState),
      (List.foldl (dviStep decode mec) st imgs).viewed_urls =
        List.foldl
          (fun s e => match e.src with | some u => insert u s | none => s)
          st.viewed_urls imgs := by
  intro imgs
  induction imgs with
  | nil => intro st; rfl
  | cons e rest ih =>
    intro st
    rw [List.foldl_cons, List.foldl_cons, ih (dviStep decode mec st e),
      dviStep_viewed]

/-- The raw URLs a round reports are a function of the DOM snapshot alone:
they do not depend on the decoder, the retry bound or the output directory. -/
theorem dvi_viewed (decode : DataUrl → Option Img) (mec : Nat)
    (imgs : List Elem) (fs : FS) :
    (download_visible_images decode mec imgs fs).viewed_urls = viewedOf imgs := by
  rw [download_visible_images, foldl_dviStep_viewed]
  rfl

/-- One element step's filesystem effect and recorded attempts depend only on
the incoming filesystem; the attempts are appended. -/
theorem dviStep_decomp (decode : DataUrl → Option Img) (mec : Nat)
    (st : DVIState) (e : Elem) :
    (dviStep decode mec st e).fs =
      (dviStep decode mec ⟨none, ∅, st.fs, []⟩ e).fs ∧
    (dviStep decode mec st e).attempted =
      st.attempted ++ (dviStep decode mec ⟨none, ∅, st.fs, []⟩ e).attempted := by
  cases h : e.src with
  | none =>
    rw [dviStep_src_none decode mec st e h,
      dviStep_src_none decode mec ⟨none, ∅, st.fs, []⟩ e h]
    simp
  | some url =>
    by_cases ht : is_thumbnail url = true
    · rw [dviStep_thumb decode mec st e url h ht,
        dviStep_thumb decode mec ⟨none, ∅, st.fs, []⟩ e url h ht]
      simp
    · have ht' : is_thumbnail url = false := by simpa using ht
      by_cases hex :
          (fsLookup st.fs (e.nameOf (enhance_image_url url) ++ ".png")).isSome
      · rw [dviStep_skip decode mec st e url h ht' hex,
          dviStep_skip decode mec ⟨none, ∅, st.fs, []⟩ e url h ht' hex]
        simp
      · have hex' :
            fsLookup st.fs (e.nameOf (enhance_image_url url) ++ ".png") = none :=
          Option.not_isSome_iff_eq_none.mp hex
        rw [dviStep_download decode mec st e url h ht' hex',
          dviStep_download decode mec ⟨none, ∅, st.fs, []⟩ e url h ht' hex']
        simp

/-- Run decomposition: a round started from any loop state behaves, on the
filesystem and on the attempts it adds, like a round started fresh on the
same filesystem. -/
theorem dvi_foldl_decomp (decode : DataUrl → Option Img) (mec : Nat) :
    ∀ (imgs : List Elem) (st : DVIState),
      (List.foldl (dviStep decode mec) st imgs).fs =
        (List.foldl (dviStep decode mec) ⟨none, ∅, st.fs, []⟩ imgs).fs ∧
      (List.foldl (dviStep decode mec) st imgs).attempted =
        st.attempted ++
          (List.foldl (dviStep decode mec) ⟨none, ∅, st.fs, []⟩ imgs).attempted := by
  intro imgs
  induction imgs with
  | nil => intro st; simp
  | cons e rest ih =>
    intro st
    rw [List.foldl_cons, List.foldl_cons]
    obtain ⟨hfs, hatt⟩ := dviStep_decomp decode mec st e
    obtain ⟨ihfs1, ihatt1⟩ := ih (dviStep decode mec st e)
    obtain ⟨ihfs2, ihatt2⟩ := ih (dviStep decode mec ⟨none, ∅, st.fs, []⟩ e)
    constructor
    · rw [ihfs1, ihfs2, hfs]
    · rw [ihatt1, ihatt2, hatt, hfs, List.append_assoc]

/-- The engine never reports a stop round earlier than the round it is in. -/
theorem engine_go_stop_round_ge (decode : DataUrl → Option Img) (mec : Nat)
    (pages : Nat → List Elem) :
    ∀ (fuel loop : Nat) (prev : Finset String) (total : Nat) (fs : FS)
      (log : List (List (String × ItemAttempt))),
      loop ≤ (engine_go decode mec pages fuel loop prev total fs log).stop_round := by
  intro fuel
  induction fuel with
  | zero => intro loop prev total fs log; exact Nat.le_refl _
  | succ n ih =>
    intro loop prev total fs log
    rw [engine_go]
    split
    · exact Nat.le_refl _
    · exact Nat.le_trans (Nat.le_succ loop) (ih (loop + 1) _ _ _ _)

theorem prevChain_shift (pages : Nat → List Elem) (loop : Nat)
    (prev : Finset String) :
    ∀ j, prevChain pages (loop + 1) (viewedOf (pages loop)) j =
      prevChain pages loop prev (j + 1)
  | 0 => by simp [prevChain]
  | j + 1 => by
    show viewedOf (pages (loop + 1 + j)) = viewedOf (pages (loop + (j + 1)))
    have h2 : loop + 1 + j = loop + (j + 1) := by omega
    rw [h2]

/-- When every remaining round contributes a URL outside the previous round's
set, the engine runs out of fuel: one round and one log entry per remaining
unit of fuel, accumulating the per-round new-URL counts, and stops through
the loop condition. -/
theorem engine_go_capped (decode : DataUrl → Option Img) (mec : Nat)
    (pages : Nat → List Elem) :
    ∀ (fuel loop : Nat) (prev : Finset String) (total : Nat) (fs : FS)
      (log : List (List (String × ItemAttempt))),
      (∀ j, j < fuel → ¬ viewedOf (pages (loop + j)) ⊆ prevChain pages loop prev j) →
      (engine_go decode mec pages fuel loop prev total fs log).stop =
          StopKind.capped ∧
        (engine_go decode mec pages fuel loop prev total fs log).stop_round =
          loop + fuel ∧
        (engine_go decode mec pages fuel loop prev total fs log).log.length =
          log.length + fuel ∧
        (engine_go decode mec pages fuel loop prev total fs log).total_downloaded =
          total + (Finset.range fuel).sum
            (fun j => (viewedOf (pages (loop + j)) \ prevChain pages loop prev j).card) := by
  intro fuel
  induction fuel with
  | zero =>
    intro loop prev total fs log _
    refine ⟨rfl, rfl, rfl, ?_⟩
    simp [engine_go]
  | succ n ih =>
    intro loop prev total fs log hnew
    have hv : (download_visible_images decode mec (pages loop) fs).viewed_urls =
        viewedOf (pages loop) := dvi_viewed decode mec (pages loop) fs
    have h0 := hnew 0 (Nat.succ_pos n)
    have hns : ¬ (download_visible_images decode mec (pages loop) fs).viewed_urls ⊆ prev := by
      rw [hv]
      simpa [prevChain] using h0
    have hcard :
        ¬ ((download_visible_images decode mec (pages loop) fs).viewed_urls ∪ prev).card =
          prev.card := fun hc => hns ((union_card_iff _ _).mp hc)
    rw [engine_go]
    rw [if_neg hcard]
    have hrec := ih (loop + 1)
      (download_visible_images decode mec (pages loop) fs).viewed_urls
      (total + ((download_visible_images decode mec (pages loop) fs).viewed_urls \ prev).card)
      (download_visible_images decode mec (pages loop) fs).fs
      (log ++ [(download_visible_images decode mec (pages loop) fs).attempted])
      (by
        intro j hj
        have h1 := hnew (j + 1) (by omega)
        rw [hv, prevChain_shift pages loop prev j]
        have h2 : loop + 1 + j = loop + (j + 1) := by omega
        rw [h2]
        exact h1)
    obtain ⟨hstop, hround, hlog, htotal⟩ := hrec
    refine ⟨hstop, ?_, ?_, ?_⟩
    · rw [hround]; omega
    · rw [hlog]; simp; omega
    · rw [htotal, hv]
      have hshift : (Finset.range n).sum
          (fun j => (viewedOf (pages (loop + 1 + j)) \
            prevChain pages (loop + 1) (viewedOf (pages loop)) j).card) =
          (Finset.range n).sum
          (fun j => (viewedOf (pages (loop + (j + 1))) \
            prevChain pages loop prev (j + 1)).card) := by
        refine Finset.sum_congr rfl (fun j _ => ?_)
        rw [prevChain_shift pages loop prev j]
        have h2 : loop + 1 + j = loop + (j + 1) := by omega
        rw [h2]
      rw [hshift]
      have hpeel : (Finset.range (n + 1)).sum
          (fun j => (viewedOf (pages (loop + j)) \ prevChain pages loop prev j).card) =
          (Finset.range n).sum
            (fun j => (viewedOf (pages (loop + (j + 1))) \
              prevChain pages loop prev (j + 1)).card) +
          (viewedOf (pages (loop + 0)) \ prevChain pages loop prev 0).card :=
        Finset.sum_range_succ' _ n
      rw [hpeel]
      have hp0 : prevChain pages loop prev 0 = prev := rfl
      rw [hp0]
      have hl0 : loop + 0 = loop := rfl
      rw [hl0]
      omega

theorem replayCookies_fst (addCookie : Cookie → Bool) :
    ∀ cookies : List Cookie,
      (replayCookies addCookie cookies).1 = cookies.map stripCookie := by
  intro cookies
  induction cookies with
  | nil => rfl
  | cons c rest ih => simp [replayCookies, ih]

theorem replayCookies_snd (addCookie : Cookie → Bool) :
    ∀ cookies : List Cookie,
      (replayCookies addCookie cookies).2 =
        (cookies.map stripCookie).filter addCookie := by
  intro cookies
  induction cookies with
  | nil => rfl
  | cons c rest ih =>
    simp only [replayCookies, List.map_cons, List.filter_cons]
    by_cases h : addCookie (stripCookie c)
    · simp [h, ih]
    · simp [h, ih]

/-- Stripping removes both rejected attributes completely. -/
theorem stripCookie_clean (c : Cookie) :
    cookieHasKey (stripCookie c) "sameSite" = false ∧
    cookieHasKey (stripCookie c) "staleAt" = false := by
  constructor
  · rw [cookieHasKey, List.any_eq_false]
    intro p hp
    rw [stripCookie, cookiePop, cookiePop] at hp
    have h1 := List.of_mem_filter (List.mem_of_mem_filter hp)
    simpa using h1
  · rw [cookieHasKey, List.any_eq_false]
    intro p hp
    rw [stripCookie, cookiePop, cookiePop] at hp
    have h1 := List.of_mem_filter hp
    simpa using h1

/-! ### Claims -/

/-- C9: `load_cookies` strips the `sameSite` attribute and the staleness
timestamp `staleAt` from every cookie record before replaying it, hands every
record to the browser even when some replays fail (a failure skips only that
record), and still reports the session restored. -/
theorem load_cookies_strips_and_tolerates
    (addCookie : Cookie → Bool) (cookies : List Cookie) :
    (load_cookies addCookie cookies).restored = true ∧
    (load_cookies addCookie cookies).handed_to_browser =
      cookies.map stripCookie ∧
    (∀ c, c ∈ (load_cookies addCookie cookies).handed_to_browser →
      cookieHasKey c "sameSite" = false ∧ cookieHasKey c "staleAt" = false) ∧
    (load_cookies addCookie cookies).added =
      (cookies.map stripCookie).filter addCookie := by
  refine ⟨rfl, replayCookies_fst addCookie cookies, ?_,
    replayCookies_snd addCookie cookies⟩
  intro c hc
  have hc2 : c ∈ cookies.map stripCookie := by
    rw [← replayCookies_fst addCookie cookies]
    exact hc
  obtain ⟨c0, _, rfl⟩ := List.mem_map.mp hc2
  exact stripCookie_clean c0

/-- C9 witness: a concrete cookie carrying both rejected attributes is
replayed stripped and the session is reported restored. -/
theorem load_cookies_strips_and_tolerates_witness :
    (load_cookies (fun _ => true) [c9Cookie]).restored = true ∧
    cookieHasKey (stripCookie c9Cookie) "sameSite" = false := by
  have h := load_cookies_strips_and_tolerates (fun _ => true) [c9Cookie]
  refine ⟨h.1, ?_⟩
  have hmem : stripCookie c9Cookie ∈
      (load_cookies (fun _ => true) [c9Cookie]).handed_to_browser := by
    rw [h.2.1]
    simp
  exact (h.2.2.1 (stripCookie c9Cookie) hmem).1

/-- C10: cancelling a task whose status is COMPLETED, FAILED or CANCELLED
returns the 400 client error and leaves the registry unchanged; cancelling a
PENDING or RUNNING task sets the status to CANCELLED and records the
completion timestamp. -/
theorem cancel_task_finished_conflict (tasks : TaskDict) (tid : String)
    (now : Nat) (t : Task) (hlook : taskLookup tasks tid = some t) :
    ((t.status = .completed ∨ t.status = .failed ∨ t.status = .cancelled) →
      cancel_task tasks tid now = (400, tasks)) ∧
    ((t.status = .pending ∨ t.status = .running) →
      cancel_task tasks tid now =
        (200, taskUpdate tasks tid ⟨.cancelled, some now⟩)) := by
  constructor
  · intro hfin
    simp [cancel_task, hlook, hfin]
  · intro hrun
    have hnot : ¬ (t.status = .completed ∨ t.status = .failed ∨
        t.status = .cancelled) := by
      rcases hrun with h | h <;> simp [h]
    simp [cancel_task, hlook, hnot]

/-- C10 witness: in a registry with one completed and one running task,
cancelling the completed one is the 400 error with the registry unchanged and
cancelling the running one records CANCELLED with its timestamp. -/
theorem cancel_task_finished_conflict_witness :
    cancel_task c10Tasks "t" 9 = (400, c10Tasks) ∧
    cancel_task c10Tasks "u" 9 =
      (200, taskUpdate c10Tasks "u" ⟨TaskStatus.cancelled, some 9⟩) :=
  ⟨(cancel_task_finished_conflict c10Tasks "t" 9
      ⟨TaskStatus.completed, some 5⟩ (by decide)).1 (Or.inl rfl),
    (cancel_task_finished_conflict c10Tasks "u" 9
      ⟨TaskStatus.running, none⟩ (by decide)).2 (Or.inr rfl)⟩

/-- C6: a decode failure is returned to the caller as the distinct `False`
outcome with the filesystem untouched (every successful persist returns
`True`), and in the retry loop a successful fetch whose payload fails to
decode ends the item after that single attempt — decode failure never
triggers another fetch. -/
theorem decode_failure_distinct_and_nonretryable :
    (∀ (decode : DataUrl → Option Img) (name d : String) (fs : FS),
      decode d = none →
      save_image_from_data_url decode name d fs = (false, fs)) ∧
    (∀ (decode : DataUrl → Option Img) (name d : String) (fs : FS) (img : Img),
      decode d = some img →
      (save_image_from_data_url decode name d fs).1 = true) ∧
    (∀ (decode : DataUrl → Option Img) (fetch : Nat → Option DataUrl)
        (name d : String) (fs : FS) (mec : Nat),
      fetch 0 = some d → decode d = none → 1 ≤ mec →
      download_with_retry decode fetch name mec fs =
        (⟨1, 0, some false⟩, fs)) := by
  refine ⟨?_, ?_, ?_⟩
  · intro decode name d fs hdec
    simp [save_image_from_data_url, hdec]
  · intro decode name d fs img hdec
    simp only [save_image_from_data_url, hdec]
    cases hfs : fsLookup fs (name ++ "." ++ strToLower img.format) with
    | none => simp [hfs]
    | some existing =>
      cases hdec2 : existing.decoded with
      | none => simp [hfs, hdec2]
      | some ex =>
        by_cases hle : img.payload.length ≤ ex.payload.length
        · simp [hfs, hdec2, hle]
        · simp [hfs, hdec2, hle]
  · intro decode fetch name d fs mec hf hdec hm
    obtain ⟨m, rfl⟩ : ∃ m, mec = m + 1 := ⟨mec - 1, by omega⟩
    rw [download_with_retry, retry_go, hf]
    simp [save_image_from_data_url, hdec]

/-- C6 witness: concrete decode failure after an immediate fetch success. -/
theorem decode_failure_distinct_and_nonretryable_witness :
    save_image_from_data_url exDecode "n" "d" [] = (false, []) ∧
    download_with_retry exDecode c6Fetch "n" 3 [] = (⟨1, 0, some false⟩, []) :=
  ⟨decode_failure_distinct_and_nonretryable.1 exDecode "n" "d" [] rfl,
    decode_failure_distinct_and_nonretryable.2.2 exDecode c6Fetch "n" "d" [] 3
      rfl rfl (by omega)⟩

/-- C3: with an existing, decodable file under the persist identity, the file
is overwritten exactly when the new decoded payload is strictly larger and is
left untouched (Skipped, returning `True`) otherwise; persisting the same
payload twice leaves the filesystem of the first persist unchanged; and the
stored decoded payload size for the identity never decreases across a persist
call. -/
theorem persist_overwrite_iff_strictly_larger :
    (∀ (decode : DataUrl → Option Img) (name d : String) (fs : FS)
        (img ex : Img),
      decode d = some img →
      fsLookup fs (name ++ "." ++ strToLower img.format) = some ⟨some ex⟩ →
      ((ex.payload.length < img.payload.length →
          save_image_from_data_url decode name d fs =
            (true, fsWrite fs (name ++ "." ++ strToLower img.format)
              ⟨some img⟩)) ∧
        (img.payload.length ≤ ex.payload.length →
          save_image_from_data_url decode name d fs = (true, fs)))) ∧
    (∀ (decode : DataUrl → Option Img) (name d : String) (fs : FS) (img : Img),
      decode d = some img →
      save_image_from_data_url decode name d
          (save_image_from_data_url decode name d fs).2 =
        (true, (save_image_from_data_url decode name d fs).2)) ∧
    (∀ (decode : DataUrl → Option Img) (name d : String) (fs : FS)
        (img ex : Img),
      decode d = some img →
      fsLookup fs (name ++ "." ++ strToLower img.format) = some ⟨some ex⟩ →
      ∃ ex2 : Img,
        fsLookup (save_image_from_data_url decode name d fs).2
            (name ++ "." ++ strToLower img.format) = some ⟨some ex2⟩ ∧
        ex.payload.length ≤ ex2.payload.length) := by
  refine ⟨?_, ?_, ?_⟩
  · intro decode name d fs img ex hdec hlook
    constructor
    · intro hlt
      have hle : ¬ img.payload.length ≤ ex.payload.length := by omega
      simp [save_image_from_data_url, hdec, hlook, hle]
    · intro hle
      simp [save_image_from_data_url, hdec, hlook, hle]
  · intro decode name d fs img hdec
    cases hlook : fsLookup fs (name ++ "." ++ strToLower img.format) with
    | none =>
      have h1 : (save_image_from_data_url decode name d fs).2 =
          fsWrite fs (name ++ "." ++ strToLower img.format) ⟨some img⟩ := by
        simp [save_image_from_data_url, hdec, hlook]
      rw [h1]
      simp [save_image_from_data_url, hdec, fsLookup_fsWrite_self]
    | some existing =>
      cases hdec2 : existing.decoded with
      | none =>
        have h1 : (save_image_from_data_url decode name d fs).2 =
            fsWrite fs (name ++ "." ++ strToLower img.format) ⟨some img⟩ := by
          simp [save_image_from_data_url, hdec, hlook, hdec2]
        rw [h1]
        simp [save_image_from_data_url, hdec, fsLookup_fsWrite_self]
      | some ex =>
        by_cases hle : img.payload.length ≤ ex.payload.length
        · have h1 : (save_image_from_data_url decode name d fs).2 = fs := by
            simp [save_image_from_data_url, hdec, hlook, hdec2, hle]
          rw [h1]
          simp [save_image_from_data_url, hdec, hlook, hdec2, hle]
        · have h1 : (save_image_from_data_url decode name d fs).2 =
              fsWrite fs (name ++ "." ++ strToLower img.format) ⟨some img⟩ := by
            simp [save_image_from_data_url, hdec, hlook, hdec2, hle]
          rw [h1]
          simp [save_image_from_data_url, hdec, fsLookup_fsWrite_self]
  · intro decode name d fs img ex hdec hlook
    by_cases hle : img.payload.length ≤ ex.payload.length
    · refine ⟨ex, ?_, Nat.le_refl _⟩
      have h1 : (save_image_from_data_url decode name d fs).2 = fs := by
        simp [save_image_from_data_url, hdec, hlook, hle]
      rw [h1, hlook]
    · refine ⟨img, ?_, by omega⟩
      have h1 : (save_image_from_data_url decode name d fs).2 =
          fsWrite fs (name ++ "." ++ strToLower img.format) ⟨some img⟩ := by
        simp [save_image_from_data_url, hdec, hlook, hle]
      rw [h1, fsLookup_fsWrite_self]

/-- C3 witness: persisting a strictly larger PNG over a smaller one
overwrites it, and re-persisting the same payload changes nothing. -/
theorem persist_overwrite_iff_strictly_larger_witness :
    save_image_from_data_url c3Decode "n" "d" c3Fs =
      (true, fsWrite c3Fs "n.png" ⟨some c3Big⟩) ∧
    save_image_from_data_url c3Decode "n" "d"
        (save_image_from_data_url c3Decode "n" "d" c3Fs).2 =
      (true, (save_image_from_data_url c3Decode "n" "d" c3Fs).2) := by
  constructor
  · have h := (persist_overwrite_iff_strictly_larger.1 c3Decode "n" "d" c3Fs
      c3Big c3Small rfl (by decide)).1 (by decide)
    rw [h]
    decide
  · exact persist_overwrite_iff_strictly_larger.2.1 c3Decode "n" "d" c3Fs
      c3Big rfl

/-- C4: the per-item retry loop makes at most `max_error_count` fetch
attempts; a fetch bridge failing on every attempt yields exactly
`max_error_count` attempts separated by `max_error_count - 1` flat
`time.sleep(2)` waits and then abandons the item with the filesystem
untouched; the first successful fetch ends the loop on the spot — for any
decoder, hence regardless of whether the persist reports Persisted or
Skipped; and an item abandoned this way leaves the rest of the round's items
processed exactly as they would have been without it. -/
theorem per_item_retry_bounded :
    (∀ (decode : DataUrl → Option Img) (fetch : Nat → Option DataUrl)
        (name : String) (fs : FS) (mec : Nat),
      (∀ n, fetch n = none) → 1 ≤ mec →
      download_with_retry decode fetch name mec fs =
        (⟨mec, mec - 1, none⟩, fs)) ∧
    (∀ (decode : DataUrl → Option Img) (fetch : Nat → Option DataUrl)
        (name : String) (fs : FS) (mec k : Nat) (d : DataUrl),
      k < mec → (∀ i, i < k → fetch i = none) → fetch k = some d →
      download_with_retry decode fetch name mec fs =
        (⟨k + 1, k, some (save_image_from_data_url decode name d fs).1⟩,
          (save_image_from_data_url decode name d fs).2)) ∧
    (∀ (decode : DataUrl → Option Img) (mec : Nat) (e : Elem)
        (es : List Elem) (fs : FS) (url : String),
      e.src = some url → is_thumbnail url = false →
      fsLookup fs (e.nameOf (enhance_image_url url) ++ ".png") = none →
      (∀ n, e.fetch n = none) → 1 ≤ mec →
      (download_visible_images decode mec (e :: es) fs).attempted =
        (e.nameOf (enhance_image_url url), ⟨mec, mec - 1, none⟩) ::
          (download_visible_images decode mec es fs).attempted ∧
      (download_visible_images decode mec (e :: es) fs).fs =
        (download_visible_images decode mec es fs).fs) := by
  have hfail : ∀ (decode : DataUrl → Option Img) (fetch : Nat → Option DataUrl)
      (name : String) (fs : FS) (mec : Nat),
      (∀ n, fetch n = none) → 1 ≤ mec →
      download_with_retry decode fetch name mec fs =
        (⟨mec, mec - 1, none⟩, fs) := by
    intro decode fetch name fs mec hf hm
    obtain ⟨m, rfl⟩ : ∃ m, mec = m + 1 := ⟨mec - 1, by omega⟩
    rw [download_with_retry, retry_go_all_fail decode fetch name fs hf m 0]
    simp
  refine ⟨hfail, ?_, ?_⟩
  · intro decode fetch name fs mec k d hk h0 hs
    rw [download_with_retry]
    exact retry_go_first_success decode fetch name fs d k mec 0 hk
      (fun i hi => by simpa using h0 i hi) (by simpa using hs)
  · intro decode mec e es fs url hsrc ht hex hf hm
    have hstep : dviStep decode mec ⟨none, ∅, fs, []⟩ e =
        ⟨some e, insert url ∅, fs,
          [(e.nameOf (enhance_image_url url), ⟨mec, mec - 1, none⟩)]⟩ := by
      rw [dviStep_download decode mec ⟨none, ∅, fs, []⟩ e url hsrc ht hex]
      rw [show (⟨none, ∅, fs, []⟩ : DVIState).fs = fs from rfl]
      rw [hfail decode e.fetch (e.nameOf (enhance_image_url url)) fs mec hf hm]
      rfl
    have hrun := dvi_foldl_decomp decode mec es
      (⟨some e, insert url ∅, fs,
        [(e.nameOf (enhance_image_url url), ⟨mec, mec - 1, none⟩)]⟩ : DVIState)
    rw [download_visible_images, List.foldl_cons, hstep]
    constructor
    · rw [hrun.2]
      rfl
    · rw [hrun.1]
      rfl

/-- C4 witness: with the bound 3, an always-failing bridge makes exactly 3
attempts and 2 waits; a bridge succeeding on its second attempt stops there
with the save outcome recorded. -/
theorem per_item_retry_bounded_witness :
    download_with_retry exDecode c4FetchFail "n" 3 [] = (⟨3, 2, none⟩, []) ∧
    download_with_retry exDecode c4FetchOk "n" 3 [] =
      (⟨2, 1, some false⟩, []) := by
  constructor
  · exact per_item_retry_bounded.1 exDecode c4FetchFail "n" [] 3
      (fun n => rfl) (by omega)
  · have h := per_item_retry_bounded.2.1 exDecode c4FetchOk "n" [] 3 1 "d"
      (by omega)
      (fun i hi => by
        have h0 : i = 0 := by omega
        subst h0
        rfl)
      rfl
    rw [h]
    decide

/-- C2 (amended): a media element whose URL carries a small-size variant
token has its raw URL added to `viewed_urls` and is never selected as the
scroll anchor, but — contrary to the original claim — it is excluded from the
download pass: the loop `continue`s before the filename check and the fetch,
leaving the filesystem and the attempt log untouched. -/
theorem thumbnail_counted_never_anchor_skipped
    (decode : DataUrl → Option Img) (mec : Nat) (st : DVIState) (e : Elem)
    (url : String) (h : e.src = some url) (ht : is_thumbnail url = true) :
    (dviStep decode mec st e).viewed_urls = insert url st.viewed_urls ∧
    (dviStep decode mec st e).last_img = st.last_img ∧
    (dviStep decode mec st e).fs = st.fs ∧
    (dviStep decode mec st e).attempted = st.attempted := by
  rw [dviStep_thumb decode mec st e url h ht]
  exact ⟨rfl, rfl, rfl, rfl⟩

/-- C2 witness: the thumbnail URL joins `viewed_urls` while the anchor and
the attempt log stay empty. -/
theorem thumbnail_counted_never_anchor_skipped_witness :
    (dviStep c2Decode 3 ⟨none, ∅, [], []⟩ c2Thumb).attempted = [] ∧
    (dviStep c2Decode 3 ⟨none, ∅, [], []⟩ c2Thumb).last_img = none := by
  have h := thumbnail_counted_never_anchor_skipped c2Decode 3
    ⟨none, ∅, [], []⟩ c2Thumb c2ThumbUrl rfl (by decide)
  exact ⟨h.2.2.2, h.2.1⟩

/-- C2 counterexample: a thumbnail element with a working fetch bridge and no
existing file is *not* downloaded (empty attempt log, untouched filesystem),
refuting "thumbnails still go through the download attempt"; the same element
under a non-thumbnail URL is downloaded. -/
theorem thumbnail_download_pass_counterexample :
    is_thumbnail c2ThumbUrl = true ∧
    (download_visible_images c2Decode 3 [c2Thumb] []).attempted = [] ∧
    (download_visible_images c2Decode 3 [c2Thumb] []).fs = [] ∧
    (download_visible_images c2Decode 3 [c2Thumb] []).viewed_urls =
      {c2ThumbUrl} ∧
    (download_visible_images c2Decode 3 [c2Plain] []).attempted ≠ [] := by
  refine ⟨by decide, by decide, by decide, by decide, by decide⟩

/-- C7 (amended): for a viewed non-thumbnail URL a download is attempted
exactly when no file named `{identity}.png` exists in the output directory —
the skip check hard-codes the `.png` extension (scraper.py line 157) — while
a successful persist names its file `{identity}.{decoded-format-extension}`
(scraper.py line 59), so the two filenames coincide only when the decoded
format is PNG. -/
theorem skip_check_tests_hardcoded_png :
    (∀ (decode : DataUrl → Option Img) (mec : Nat) (st : DVIState) (e : Elem)
        (url : String), e.src = some url → is_thumbnail url = false →
      ((dviStep decode mec st e).attempted ≠ st.attempted ↔
        fsLookup st.fs (e.nameOf (enhance_image_url url) ++ ".png") = none)) ∧
    (∀ (decode : DataUrl → Option Img) (name d : String) (fs : FS) (img : Img),
      decode d = some img →
      (save_image_from_data_url decode name d fs).2 = fs ∨
      (save_image_from_data_url decode name d fs).2 =
        fsWrite fs (name ++ "." ++ strToLower img.format) ⟨some img⟩) := by
  constructor
  · intro decode mec st e url hsrc ht
    constructor
    · intro hne
      by_contra hs
      have hex : (fsLookup st.fs
          (e.nameOf (enhance_image_url url) ++ ".png")).isSome := by
        cases hfs : fsLookup st.fs (e.nameOf (enhance_image_url url) ++ ".png")
        · exact absurd hfs hs
        · rfl
      rw [dviStep_skip decode mec st e url hsrc ht hex] at hne
      exact hne rfl
    · intro hex
      rw [dviStep_download decode mec st e url hsrc ht hex]
      exact append_singleton_ne st.attempted _
  · intro decode name d fs img hdec
    cases hlook : fsLookup fs (name ++ "." ++ strToLower img.format) with
    | none =>
      right
      simp [save_image_from_data_url, hdec, hlook]
    | some existing =>
      cases hdec2 : existing.decoded with
      | none =>
        right
        simp [save_image_from_data_url, hdec, hlook, hdec2]
      | some ex =>
        by_cases hle : img.payload.length ≤ ex.payload.length
        · left
          simp [save_image_from_data_url, hdec, hlook, hdec2, hle]
        · right
          simp [save_image_from_data_url, hdec, hlook, hdec2, hle]

/-- C7 witness: with no `n.png` on disk the element named `n` is attempted. -/
theorem skip_check_tests_hardcoded_png_witness :
    (dviStep c7Decode 3 ⟨none, ∅, c7Fs, []⟩ c7Elem).attempted ≠ [] := by
  have h := (skip_check_tests_hardcoded_png.1 c7Decode 3
    ⟨none, ∅, c7Fs, []⟩ c7Elem "u" rfl (by decide)).mpr (by decide)
  simpa using h

/-- C7 counterexample: the image decoded from the fetched payload is a JPEG,
so the persisted file for identity `n` is `n.jpeg`; on the next round the
skip check looks for `n.png`, misses, and the engine attempts the download
again even though the persisted file for that identity exists — refuting
"downloads are attempted exactly when no persisted file for the identity
exists". -/
theorem skip_check_filename_mismatch_counterexample :
    c7Fs = [("n.jpeg", ⟨some c7Img⟩)] ∧
    fsLookup c7Fs ("n" ++ "." ++ strToLower c7Img.format) = some ⟨some c7Img⟩ ∧
    (download_visible_images c7Decode 3 [c7Elem] c7Fs).attempted =
      [("n", ⟨1, 0, some true⟩)] := by
  refine ⟨by decide, by decide, by decide⟩

/-- C5: because app.py line 170 reassigns `previous_urls = viewed_urls`
before the no-new-content test of line 180, that test always passes: any
round that is entered uncancelled (and extracts without exception) breaks out
of the scroll loop immediately and the task is marked COMPLETED — after
exactly one round, whatever `max_scroll` was and whatever later rounds would
have yielded. -/
theorem task_runner_single_round_completion :
    (∀ (decode : DataUrl → Option Img) (pages : Nat → List Elem)
        (cancelAt : Nat → Bool) (fuel loop : Nat) (prev : Finset String)
        (total : Nat) (fs : FS) (rounds : Nat),
      cancelAt loop = false →
      task_go decode pages cancelAt (fuel + 1) loop prev total fs rounds =
        ⟨.completed,
          total + ((download_visible_images decode 3 (pages loop) fs).viewed_urls
            \ prev).card,
          rounds + 1, loop⟩) ∧
    (∀ (decode : DataUrl → Option Img) (pages : Nat → List Elem)
        (cancelAt : Nat → Bool) (max_scroll : Nat) (fs : FS),
      cancelAt 0 = false → 1 ≤ max_scroll →
      run_download_task decode pages cancelAt max_scroll fs =
        ⟨.completed, (viewedOf (pages 0)).card, 1, 0⟩) := by
  have hstep : ∀ (decode : DataUrl → Option Img) (pages : Nat → List Elem)
      (cancelAt : Nat → Bool) (fuel loop : Nat) (prev : Finset String)
      (total : Nat) (fs : FS) (rounds : Nat),
      cancelAt loop = false →
      task_go decode pages cancelAt (fuel + 1) loop prev total fs rounds =
        ⟨.completed,
          total + ((download_visible_images decode 3 (pages loop) fs).viewed_urls
            \ prev).card,
          rounds + 1, loop⟩ := by
    intro decode pages cancelAt fuel loop prev total fs rounds hc
    simp only [task_go, hc]
    rw [if_neg (by simp)]
    rw [if_pos (by rw [Finset.union_self])]
  constructor
  · exact hstep
  · intro decode pages cancelAt ms fs hc hms
    obtain ⟨n, rfl⟩ : ∃ n, ms = n + 1 := ⟨ms - 1, by omega⟩
    rw [run_download_task, hstep decode pages cancelAt n 0 ∅ 0 fs 0 hc]
    rw [dvi_viewed]
    simp

/-- C5 witness: a task with `max_scroll = 7` over a one-image feed completes
after a single round with one image counted. -/
theorem task_runner_single_round_completion_witness :
    run_download_task exDecode c5Pages (fun _ => false) 7 [] =
      ⟨TaskStatus.completed, 1, 1, 0⟩ := by
  have h := task_runner_single_round_completion.2 exDecode c5Pages
    (fun _ => false) 7 [] rfl (by omega)
  rw [h]
  decide

/-- C1 (amended): in any round a running engine reaches, it returns
`total_downloaded` through the no-new-content branch at that round if and
only if the round's `viewed_urls` is a subset of the preceding round's
`previous_urls` (the code's cardinality test), in which case the total is
returned unchanged; otherwise it adds the number of URLs in `viewed_urls`
not in `previous_urls` and continues with `previous_urls := viewed_urls`.
The round's download pass has already run before the test, so downloads may
still be attempted in the terminating round (see the counterexample).  With
rounds 1 and 2 both yielding `{A, B, C}`, the engine stops in the second
round with `total_downloaded = 3`. -/
theorem scroll_engine_exhaustion_characterization :
    (∀ (decode : DataUrl → Option Img) (mec : Nat) (pages : Nat → List Elem)
        (fuel loop : Nat) (prev : Finset String) (total : Nat) (fs : FS)
        (log : List (List (String × ItemAttempt))),
      (((engine_go decode mec pages (fuel + 1) loop prev total fs log).stop =
            StopKind.exhausted ∧
          (engine_go decode mec pages (fuel + 1) loop prev total fs
              log).stop_round = loop) ↔
        (download_visible_images decode mec (pages loop) fs).viewed_urls ⊆ prev) ∧
      ((download_visible_images decode mec (pages loop) fs).viewed_urls ⊆ prev →
        (engine_go decode mec pages (fuel + 1) loop prev total fs
            log).total_downloaded = total) ∧
      (¬ (download_visible_images decode mec (pages loop) fs).viewed_urls ⊆ prev →
        engine_go decode mec pages (fuel + 1) loop prev total fs log =
          engine_go decode mec pages fuel (loop + 1)
            (download_visible_images decode mec (pages loop) fs).viewed_urls
            (total + ((download_visible_images decode mec (pages loop)
              fs).viewed_urls \ prev).card)
            (download_visible_images decode mec (pages loop) fs).fs
            (log ++ [(download_visible_images decode mec (pages loop)
              fs).attempted]))) ∧
    ((scroll_and_download exDecode 3 exPagesABC 10 []).stop =
        StopKind.exhausted ∧
      (scroll_and_download exDecode 3 exPagesABC 10 []).stop_round = 1 ∧
      (scroll_and_download exDecode 3 exPagesABC 10 []).total_downloaded = 3) := by
  constructor
  · intro decode mec pages fuel loop prev total fs log
    by_cases hsub :
        (download_visible_images decode mec (pages loop) fs).viewed_urls ⊆ prev
    · have hcard :
          ((download_visible_images decode mec (pages loop) fs).viewed_urls ∪
            prev).card = prev.card := (union_card_iff _ _).mpr hsub
      refine ⟨⟨fun _ => hsub, fun _ => ?_⟩, fun _ => ?_, fun hn => absurd hsub hn⟩
      · simp only [engine_go]
        rw [if_pos hcard]
        exact ⟨rfl, rfl⟩
      · simp only [engine_go]
        rw [if_pos hcard]
    · have hcard :
          ¬ ((download_visible_images decode mec (pages loop) fs).viewed_urls ∪
            prev).card = prev.card := fun hc => hsub ((union_card_iff _ _).mp hc)
      have hcont : engine_go decode mec pages (fuel + 1) loop prev total fs log =
          engine_go decode mec pages fuel (loop + 1)
            (download_visible_images decode mec (pages loop) fs).viewed_urls
            (total + ((download_visible_images decode mec (pages loop)
              fs).viewed_urls \ prev).card)
            (download_visible_images decode mec (pages loop) fs).fs
            (log ++ [(download_visible_images decode mec (pages loop)
              fs).attempted]) := by
        simp only [engine_go]
        rw [if_neg hcard]
      refine ⟨⟨?_, fun hs => absurd hs hsub⟩, fun hs => absurd hs hsub,
        fun _ => hcont⟩
      rintro ⟨_, hround⟩
      exfalso
      rw [hcont] at hround
      have hge := engine_go_stop_round_ge decode mec pages fuel (loop + 1)
        (download_visible_images decode mec (pages loop) fs).viewed_urls
        (total + ((download_visible_images decode mec (pages loop)
          fs).viewed_urls \ prev).card)
        (download_visible_images decode mec (pages loop) fs).fs
        (log ++ [(download_visible_images decode mec (pages loop)
          fs).attempted])
      omega
  · exact ⟨by decide, by decide, by decide⟩

/-- C1 witness: round 1 over the `{A, B, C}` feed (with `previous_urls`
already `{A, B, C}`) exits through the exhaustion branch with the running
total unchanged. -/
theorem scroll_engine_exhaustion_characterization_witness :
    (engine_go exDecode 3 exPagesABC (8 + 1) 1
        (insert "A" (insert "B" {"C"})) 3 [] []).stop = StopKind.exhausted ∧
    (engine_go exDecode 3 exPagesABC (8 + 1) 1
        (insert "A" (insert "B" {"C"})) 3 [] []).total_downloaded = 3 := by
  have h := scroll_engine_exhaustion_characterization.1 exDecode 3 exPagesABC
    8 1 (insert "A" (insert "B" {"C"})) 3 [] []
  have hsub : (download_visible_images exDecode 3 (exPagesABC 1) []).viewed_urls
      ⊆ insert "A" (insert "B" {"C"}) := by decide
  exact ⟨(h.1.mpr hsub).1, h.2.1 hsub⟩

/-- C1 counterexample: a feed showing the same image in both rounds whose
fetch always fails.  The engine terminates through the exhaustion branch in
round 2, yet that terminating round attempted the download again (three fetch
attempts are on its log) — refuting "in that terminating round no downloads
are attempted". -/
theorem scroll_engine_terminating_round_attempts_download :
    (scroll_and_download exDecode 3 ce1Pages 10 []).stop =
      StopKind.exhausted ∧
    (scroll_and_download exDecode 3 ce1Pages 10 []).stop_round = 1 ∧
    (scroll_and_download exDecode 3 ce1Pages 10 []).log.getD 1 [] =
      [("u", ⟨3, 2, none⟩)] := by
  refine ⟨by decide, by decide, by decide⟩

/-- C8: when every one of the first `max_scroll` rounds yields a URL outside
the previous round's set, the engine performs exactly `max_scroll` rounds
(one log entry and one increment of the round counter per round) and then
stops through the loop condition — the normal `return`, not a failure —
with the accumulated per-round new-URL total. -/
theorem round_cap_completes (decode : DataUrl → Option Img) (mec : Nat)
    (pages : Nat → List Elem) (max_scroll : Nat) (fs : FS)
    (hnew : ∀ j, j < max_scroll →
      ¬ viewedOf (pages j) ⊆ prevChain pages 0 ∅ j) :
    (scroll_and_download decode mec pages max_scroll fs).stop =
        StopKind.capped ∧
    (scroll_and_download decode mec pages max_scroll fs).stop_round =
      max_scroll ∧
    (scroll_and_download decode mec pages max_scroll fs).log.length =
      max_scroll ∧
    (scroll_and_download decode mec pages max_scroll fs).total_downloaded =
      (Finset.range max_scroll).sum
        (fun j => (viewedOf (pages j) \ prevChain pages 0 ∅ j).card) := by
  have h := engine_go_capped decode mec pages max_scroll 0 ∅ 0 fs []
    (by
      intro j hj
      have h1 := hnew j hj
      rw [Nat.zero_add]
      exact h1)
  obtain ⟨h1, h2, h3, h4⟩ := h
  refine ⟨h1, by rw [scroll_and_download, h2]; omega,
    by rw [scroll_and_download, h3]; simp, ?_⟩
  rw [scroll_and_download, h4]
  have hsum : (Finset.range max_scroll).sum
      (fun j => (viewedOf (pages (0 + j)) \ prevChain pages 0 ∅ j).card) =
      (Finset.range max_scroll).sum
      (fun j => (viewedOf (pages j) \ prevChain pages 0 ∅ j).card) :=
    Finset.sum_congr rfl (fun j _ => by rw [Nat.zero_add])
  rw [hsum]
  omega

/-- C8 witness: a feed yielding a fresh URL each round and `max_scroll = 2`
stops through the round cap after exactly 2 rounds. -/
theorem round_cap_completes_witness :
    (scroll_and_download exDecode 3 c8Pages 2 []).stop = StopKind.capped ∧
    (scroll_and_download exDecode 3 c8Pages 2 []).stop_round = 2 ∧
    (scroll_and_download exDecode 3 c8Pages 2 []).log.length = 2 := by
  have h := round_cap_completes exDecode 3 c8Pages 2 [] (by decide)
  exact ⟨h.1, h.2.1, h.2.2.1⟩

end Lyubitori
